import Mathlib

/-!
Verification of the lambdalith event-router library.

This file shallowly embeds the parts of the TypeScript source that the
specification's claims are about:

* `src/router/middleware.ts` — the middleware composer (`composeMiddleware`
  and its inner `dispatch` loop), embedded over a state-and-exception monad
  `M`.  JavaScript's single-threaded `async`/`await` execution of a chain is
  modelled as sequential monadic execution; a thrown JS `Error` is modelled
  as the `Res.err` outcome carrying the error message, and — as in
  JavaScript — state mutations performed before a throw persist.
* `src/routers/batch-router.ts` — the batch execution engine
  (`processSequentially`, `processInParallel`, `handle`).  The abstract
  per-record processing step is a parameter returning the list of observable
  events it performs (handler calls, middleware calls, not-found handling)
  together with its outcome.
* `src/routers/sqs-router.ts` and `src/router.ts` — route matching and
  per-record processing for the SQS and EventBridge routers.
* the DynamoDB attribute-value unmarshaller from the repository's utils
  module (`unmarshall` / `unmarshallValue`).

Handlers take a context built from the record; since none of the claims
inspect the context key/value store, a handler is modelled as a function of
the record itself.
-/

/-- Mutable state of one invocation of a composed middleware chain:
`currentIndex` is the highest chain index reached (`-1` initially, as in
`let currentIndex = -1`), `nextCalled` models the per-index
`const nextCalled = { value: false }` flag objects, and `trace` is the
ordered log of observable events (middleware phases, handler runs). -/
structure ChainState where
  currentIndex : Int
  nextCalled : Nat → Bool
  trace : List String

/-- Result of running a chain computation: JavaScript state mutations
performed before a `throw` persist, so the error case carries the state. -/
inductive Res (α : Type) : Type where
  | ok (a : α) (s : ChainState)
  | err (e : String) (s : ChainState)

/-- The chain computation monad: state plus JS exceptions (by message). -/
def M (α : Type) : Type := ChainState → Res α

instance : Monad M where
  pure a := fun s => Res.ok a s
  bind x f := fun s =>
    match x s with
    | Res.ok a t => f a t
    | Res.err e t => Res.err e t

/-- Read the chain state. -/
def getS : M ChainState := fun s => Res.ok s s

/-- Update the chain state. -/
def modifyS (f : ChainState → ChainState) : M Unit := fun s => Res.ok () (f s)

/-- Model of `throw new Error(e)`. -/
def throwM {α : Type} (e : String) : M α := fun s => Res.err e s

/-- Record an observable event (a handler or middleware phase running). -/
def emit (e : String) : M Unit :=
  modifyS fun st => { st with trace := st.trace ++ [e] }

/-- A middleware receives the context and a `next` continuation
(`Middleware<C> = (c, next) => void | Promise<void>`). -/
abbrev Mw (C : Type) : Type := C → M Unit → M Unit

/-- The `dispatch` loop of `composeMiddleware` in `src/router/middleware.ts`.
The absolute `index` is kept for the `index <= currentIndex` guard and the
`nextCalled` flags; the still-unprocessed suffix of the middleware array
stands in for `middlewares[index], middlewares[index+1], ...` (the JS
`index < middlewares.length` bounds test corresponds to the suffix being
nonempty; the defensive `if (!mw)` sparse-array check cannot fire on a
total list and is omitted). -/
def dispatch {C : Type} (handler : C → M Unit) (c : C) :
    List (Mw C) → Nat → M Unit
  | [], index => do
    let s ← getS
    if (index : Int) ≤ s.currentIndex then
      throwM "next() called multiple times"
    else
      modifyS fun st => { st with currentIndex := (index : Int) }
      -- End of middleware chain, call handler
      handler c
  | mw :: rest, index => do
    let s ← getS
    -- Prevent calling next() multiple times
    if (index : Int) ≤ s.currentIndex then
      throwM "next() called multiple times"
    else
      modifyS fun st => { st with currentIndex := (index : Int) }
      modifyS fun st => { st with nextCalled := Function.update st.nextCalled index false }
      let next : M Unit := do
        modifyS fun st => { st with nextCalled := Function.update st.nextCalled index true }
        dispatch handler c rest (index + 1)
      mw c next
      let s2 ← getS
      -- Auto-continue if next() was not called
      if s2.nextCalled index = false then
        dispatch handler c rest (index + 1)
      else
        pure ()

/-- `composeMiddleware` from `src/router/middleware.ts`: one invocable chain
from an ordered middleware list plus a terminal handler.  Each invocation
starts from a fresh `currentIndex = -1`. -/
def composeMiddleware {C : Type} (middlewares : List (Mw C))
    (handler : C → M Unit) : C → M Unit :=
  fun c => do
    modifyS fun st => { st with currentIndex := -1 }
    dispatch handler c middlewares 0

/-- Run one composed-chain invocation from a pristine state, returning the
outcome and the ordered event trace. -/
def runChain {C : Type} (middlewares : List (Mw C)) (handler : C → M Unit)
    (c : C) : Except String Unit × List String :=
  match composeMiddleware middlewares handler c
      { currentIndex := -1, nextCalled := fun _ => false, trace := [] } with
  | Res.ok _ s => (Except.ok (), s.trace)
  | Res.err e s => (Except.error e, s.trace)

/-- A terminal handler that just records that it ran. -/
def logHandler {C : Type} (hl : String) : C → M Unit := fun _ => emit hl

/-- A middleware with a before phase, an awaited `next()`, and an after
phase. -/
def logMw {C : Type} (bl al : String) : Mw C := fun _ next => do
  emit bl
  next
  emit al

/-- A middleware with a before phase that awaits `next()` and has no after
phase. -/
def beforeMw {C : Type} (bl : String) : Mw C := fun _ next => do
  emit bl
  next

/-- A middleware that returns without ever invoking `next()`. -/
def noNextMw {C : Type} (bl : String) : Mw C := fun _ _ => emit bl

/-- A middleware that awaits `next()` twice. -/
def doubleNextMw {C : Type} : Mw C := fun _ next => do
  next
  next

/-- Wrap a (before, after) label pair into a standard logging middleware. -/
def pairMw {C : Type} (p : String × String) : Mw C := logMw p.1 p.2

/-- Specification of a successful run of `dispatch` on a given suffix at
index `i`: from any state at chain position `i - 1` it succeeds, appends
exactly `T` to the trace, leaves `currentIndex` at `F`, and only touches
`nextCalled` flags at indices ≥ `i`. -/
def chainOk {C : Type} (handler : C → M Unit) (c : C) (suffix : List (Mw C))
    (i : Nat) (T : List String) (F : Int) : Prop :=
  ∀ s : ChainState, s.currentIndex = (i : Int) - 1 →
    ∃ nc, dispatch handler c suffix i s
        = Res.ok () { currentIndex := F, nextCalled := nc, trace := s.trace ++ T }
      ∧ ∀ j, j < i → nc j = s.nextCalled j

/-- Specification of a failing run of `dispatch`: it fails with the protocol
error after appending exactly `T` to the trace. -/
def chainErr {C : Type} (handler : C → M Unit) (c : C) (suffix : List (Mw C))
    (i : Nat) (T : List String) : Prop :=
  ∀ s : ChainState, s.currentIndex = (i : Int) - 1 →
    ∃ t, dispatch handler c suffix i s = Res.err "next() called multiple times" t
      ∧ t.trace = s.trace ++ T

/-- One reported batch item failure (`{ itemIdentifier: string }`). -/
structure BatchItemFailure where
  itemIdentifier : String
deriving Repr, DecidableEq

/-- The platform's partial-batch-failure response shape. -/
structure BatchResponse where
  batchItemFailures : List BatchItemFailure
deriving Repr, DecidableEq

namespace BatchRouter

/-- `BatchRouteOptions` from `src/routers/batch-router.ts`
(`{ sequential?: boolean }`). -/
structure RouteOptions where
  sequential : Option Bool

/-- A route as seen by the abstract batch router: optional options plus a
handler (`TRoute extends { options?: BatchRouteOptions | undefined }`);
`η` is the handler type. -/
structure Route (η : Type) where
  options : Option RouteOptions
  handler : η

/-- Status test on a settled promise (`result.status === 'rejected'`). -/
def isRejected {ε : Type} (out : Except ε Unit) : Bool :=
  match out with
  | Except.error _ => true
  | Except.ok _ => false

/-- `isSequential` of `src/routers/batch-router.ts`: no first record means
not sequential; otherwise `route?.options?.sequential === true` for the
route matched by the first record. -/
def isSequential {ρ η : Type} (findRouteForRecord : ρ → Option (Route η))
    (firstRecord : Option ρ) : Bool :=
  match firstRecord with
  | none => false
  | some r =>
    match findRouteForRecord r with
    | none => false
    | some route =>
      match route.options with
      | none => false
      | some o => o.sequential == some true

/-- `processSequentially` of `src/routers/batch-router.ts`: records are
processed one at a time in list order; on the first rejection the loop
returns `records.slice(i).map(getRecordId)` — the failing record and every
remaining one.  The per-record step `processRecord` yields the list of
observable events it performs together with its outcome; the second
component of the result collects the events that actually happened (the
returned `firstError` is ignored by `handle` and is not modelled). -/
def processSequentially {ρ ε : Type} (getRecordId : ρ → String)
    (processRecord : ρ → List String × Except ε Unit) :
    List ρ → List String × List String
  | [] => ([], [])
  | r :: rs =>
    match processRecord r with
    | (tr, Except.ok _) =>
      let res := processSequentially getRecordId processRecord rs
      (res.1, tr ++ res.2)
    | (tr, Except.error _) => ((r :: rs).map getRecordId, tr)

/-- `processInParallel` of `src/routers/batch-router.ts`: every record is
scheduled (`Promise.allSettled`), so every record's events happen; the
failure list collects, in the original index order, the id of each record
whose processing rejected.  The second component lists each record's
events. -/
def processInParallel {ρ ε : Type} (getRecordId : ρ → String)
    (processRecord : ρ → List String × Except ε Unit) (records : List ρ) :
    List String × List (List String) :=
  ((records.filter fun r => isRejected (processRecord r).2).map getRecordId,
   records.map fun r => (processRecord r).1)

/-- `BatchRouter.handle`: pick the mode once from the first record's matched
route, process, and wrap the failure ids. -/
def handle {ρ η ε : Type} (getRecordId : ρ → String)
    (findRouteForRecord : ρ → Option (Route η))
    (processRecord : ρ → List String × Except ε Unit)
    (records : List ρ) : BatchResponse :=
  let failures :=
    if isSequential findRouteForRecord records.head? then
      (processSequentially getRecordId processRecord records).1
    else
      (processInParallel getRecordId processRecord records).1
  { batchItemFailures := failures.map fun id => { itemIdentifier := id } }

end BatchRouter

/-- One SQS record, reduced to the fields the router logic reads. -/
structure SQSRecord where
  messageId : String
  eventSourceARN : String
deriving Repr, DecidableEq

/-- `parseQueueName` from the utils module: the ARN segment after the last
colon (`parts[parts.length - 1] ?? ''`). -/
def parseQueueName (eventSourceArn : String) : String :=
  ((eventSourceArn.splitOn ":").getLast?).getD ""

/-- JavaScript truthiness test `!x` on a `string | undefined` value: true
for `undefined` and for the empty string. -/
def jsFalsy (s : Option String) : Bool :=
  match s with
  | none => true
  | some str => str == ""

namespace SqsRouter

/-- `SQSOptions` (`{ sequential?: boolean }`). -/
structure SQSOptions where
  sequential : Option Bool

/-- An `SQSRoute` of `src/routers/sqs-router.ts`: optional queue-name
matcher, optional options, handler.  The handler is modelled as a function
of the record (its context) yielding its observable events and outcome. -/
structure SQSRoute where
  queueName : Option String
  options : Option SQSOptions
  handler : SQSRecord → List String × Except String Unit

/-- `SqsRouter.matchRoute`: first route in registration order with
`!route.queueName || route.queueName === queue`. -/
def matchRoute : List SQSRoute → String → Option SQSRoute
  | [], _ => none
  | route :: rest, queue =>
    if jsFalsy route.queueName || route.queueName == some queue then some route
    else matchRoute rest queue

/-- `SqsRouter.processRecord`: no matching route delegates to the not-found
handler (whose own rejection propagates) and otherwise succeeds; a matched
route runs its handler, and on a thrown error the error handler (if any) is
awaited with the error and then the original error is rethrown — unless the
error handler itself throws, in which case its error propagates instead. -/
def processRecord (routes : List SQSRoute)
    (errorHandler : Option (String → SQSRecord → List String × Except String Unit))
    (notFoundHandler : Option (SQSRecord → List String × Except String Unit))
    (record : SQSRecord) : List String × Except String Unit :=
  match matchRoute routes (parseQueueName record.eventSourceARN) with
  | none =>
    match notFoundHandler with
    | some nf => nf record
    | none => ([], Except.ok ())
  | some route =>
    let res := route.handler record
    match res.2 with
    | Except.ok _ => (res.1, Except.ok ())
    | Except.error err =>
      match errorHandler with
      | some eh =>
        let res2 := eh err record
        (res.1 ++ res2.1,
         match res2.2 with
         | Except.ok _ => Except.error err
         | Except.error e2 => Except.error e2)
      | none => (res.1, Except.error err)

/-- `SqsRouter.isSequential`: `route?.options?.sequential === true` for the
route matching the first record's queue. -/
def isSequential (routes : List SQSRoute) (firstRecord : Option SQSRecord) :
    Bool :=
  match firstRecord with
  | none => false
  | some r =>
    match matchRoute routes (parseQueueName r.eventSourceARN) with
    | none => false
    | some route =>
      match route.options with
      | none => false
      | some o => o.sequential == some true

/-- `SqsRouter.handle` of `src/routers/sqs-router.ts`.  Its private
`processSequentially` / `processInParallel` loops are the generic batch
loops with `getRecordId` fixed to `record.messageId` (the source file
inlines the identical code, returning `records.slice(i).map(r =>
r.messageId)` on a sequential failure). -/
def handle (routes : List SQSRoute)
    (errorHandler : Option (String → SQSRecord → List String × Except String Unit))
    (notFoundHandler : Option (SQSRecord → List String × Except String Unit))
    (records : List SQSRecord) : BatchResponse :=
  let failures :=
    if isSequential routes records.head? then
      (BatchRouter.processSequentially (fun r => r.messageId)
        (processRecord routes errorHandler notFoundHandler) records).1
    else
      (BatchRouter.processInParallel (fun r => r.messageId)
        (processRecord routes errorHandler notFoundHandler) records).1
  { batchItemFailures := failures.map fun id => { itemIdentifier := id } }

end SqsRouter

namespace EventRouter

/-- `EventBridgeMatchOptions` (`{ source?: string, detailType?: string }`). -/
structure EventBridgeMatchOptions where
  source : Option String
  detailType : Option String

/-- An EventBridge route: optional multi-field matcher plus a handler of
abstract type `η`. -/
structure EventBridgeRoute (η : Type) where
  options : Option EventBridgeMatchOptions
  handler : η

/-- `EventRouter.matchEventBridgeHandler` of `src/router.ts`: first route in
registration order whose options are absent, or whose `source` and
`detailType` checks (`!route.options.source || route.options.source ===
source`, same for detailType) both pass. -/
def matchEventBridgeHandler {η : Type} :
    List (EventBridgeRoute η) → String → String → Option η
  | [], _, _ => none
  | route :: rest, source, detailType =>
    match route.options with
    | none => some route.handler
    | some opts =>
      let sourceMatch := jsFalsy opts.source || opts.source == some source
      let detailTypeMatch :=
        jsFalsy opts.detailType || opts.detailType == some detailType
      if sourceMatch && detailTypeMatch then some route.handler
      else matchEventBridgeHandler rest source detailType

end EventRouter

/-- The SQS matching predicate actually implemented: absent or empty
(JS-falsy) matcher is a wildcard, otherwise exact equality. -/
def jsMatchesSQS (queue : String) (route : SqsRouter.SQSRoute) : Bool :=
  jsFalsy route.queueName || route.queueName == some queue

/-- The EventBridge matching predicate actually implemented. -/
def jsMatchesEB {η : Type} (source detailType : String)
    (route : EventRouter.EventBridgeRoute η) : Bool :=
  match route.options with
  | none => true
  | some opts =>
    (jsFalsy opts.source || opts.source == some source)
      && (jsFalsy opts.detailType || opts.detailType == some detailType)

/-- The SQS matching predicate as the specification words it: a route
matches when its matcher is absent (wildcard) or equals the key. -/
def specMatchesSQS (queue : String) (route : SqsRouter.SQSRoute) : Bool :=
  match route.queueName with
  | none => true
  | some q => q == queue

/-- A concrete SQS route registered with the empty string as its queue-name
matcher. -/
def emptyMatcherRoute : SqsRouter.SQSRoute :=
  { queueName := some "", options := none,
    handler := fun _ => ([], Except.ok ()) }

/-- A not-found handler that itself throws. -/
def throwingNotFoundHandler : SQSRecord → List String × Except String Unit :=
  fun _ => (["notFound"], Except.error "notFound handler threw")

/-- A batch record whose queue matches no route (the route list is empty). -/
def orphanRecord : SQSRecord :=
  { messageId := "msg-1", eventSourceARN := "arn:aws:sqs:us-east-1:123:orders" }

namespace SqsRouterMw

/-- A route of the `SqsRouter` generation in `src/router/sqs-router.ts`
(`Route<SQSHandler, SQSMatchOptions>`-style: `matcher` field, options,
handler).  This generation composes the record's middleware around the
handler, so the handler lives in the chain monad. -/
structure SQSRoute where
  matcher : Option String
  options : Option SqsRouter.SQSOptions
  handler : SQSRecord → M Unit

/-- `SqsRouter.matchRoute` of `src/router/sqs-router.ts`:
`!route.matcher || route.matcher === queue`. -/
def matchRoute : List SQSRoute → String → Option SQSRoute
  | [], _ => none
  | route :: rest, queue =>
    if jsFalsy route.matcher || route.matcher == some queue then some route
    else matchRoute rest queue

/-- `SqsRouter.processRecord` of `src/router/sqs-router.ts`: the matched
route's handler is wrapped in `composeMiddleware(middleware, handler)` and
the composed chain is awaited; a rejection (from middleware or handler) is
passed to the error handler and then rethrown, exactly as in the
middleware-free generation. -/
def processRecord (routes : List SQSRoute)
    (errorHandler : Option (String → SQSRecord → List String × Except String Unit))
    (notFoundHandler : Option (SQSRecord → List String × Except String Unit))
    (middleware : List (Mw SQSRecord))
    (record : SQSRecord) : List String × Except String Unit :=
  match matchRoute routes (parseQueueName record.eventSourceARN) with
  | none =>
    match notFoundHandler with
    | some nf => nf record
    | none => ([], Except.ok ())
  | some route =>
    let res := runChain middleware route.handler record
    match res.1 with
    | Except.ok _ => (res.2, Except.ok ())
    | Except.error err =>
      match errorHandler with
      | some eh =>
        let res2 := eh err record
        (res.2 ++ res2.1,
         match res2.2 with
         | Except.ok _ => Except.error err
         | Except.error e2 => Except.error e2)
      | none => (res.2, Except.error err)

end SqsRouterMw

/-- Numeric value of a decimal digit character. -/
def digitVal (c : Char) : Nat := c.toNat - 48

/-- Value of a big-endian decimal digit string. -/
def digitsToNat (l : List Char) : Nat :=
  l.foldl (fun acc c => 10 * acc + digitVal c) 0

/-- JavaScript's `Number(s)` conversion, modelled on the canonical decimal
integer strings the encoder emits: an optional leading minus sign followed
by decimal digits. -/
def jsNumber (s : String) : Int :=
  match s.data with
  | c :: cs =>
    if c = '-' then -(digitsToNat cs : Int) else (digitsToNat (c :: cs) : Int)
  | [] => (digitsToNat [] : Int)

/-- Big-endian decimal digit characters of a natural number (empty for 0). -/
def natDecimalDigits (n : Nat) : List Char :=
  ((Nat.digits 10 n).reverse).map Nat.digitChar

/-- The canonical decimal string of an integer, as JavaScript's `String(n)`
renders an integral number. -/
def intDecimalString (i : Int) : String :=
  match i with
  | Int.ofNat n => if n = 0 then "0" else String.mk (natDecimalDigits n)
  | Int.negSucc m => String.mk ('-' :: natDecimalDigits (m + 1))

/-- A plain JavaScript value, as produced by the unmarshaller (`unknown` in
the source; `undef` is JavaScript's `undefined`). -/
inductive Js : Type where
  | str (s : String)
  | num (n : Int)
  | bool (b : Bool)
  | null
  | undef
  | arr (elems : List Js)
  | obj (fields : List (String × Js))

/-- A DynamoDB `AttributeValue` from `aws-types.ts`, one tagged variant per
value (`S`, `N`, `B`, `SS`, `NS`, `BS`, `M`, `L`, `NULL`, `BOOL`), extended
with `unknownTag`, standing for an attribute value whose single tag is none
of the ten the decoder recognizes.  JavaScript numbers are carried as
decimal strings exactly as in the wire type (`N: string`, `NS: string[]`). -/
inductive AttributeValue : Type where
  | S (s : String)
  | N (n : String)
  | B (b : String)
  | SS (ss : List String)
  | NS (ns : List String)
  | BS (bs : List String)
  | M (m : List (String × AttributeValue))
  | L (l : List AttributeValue)
  | NULL (b : Bool)
  | BOOL (b : Bool)
  | unknownTag (tag : String)

mutual

/-- `unmarshall` from the utils module: decode every entry of an attribute
map (`result[key] = unmarshallValue(value)` over `Object.entries`). -/
def unmarshall : List (String × AttributeValue) → List (String × Js)
  | [] => []
  | (key, value) :: rest => (key, unmarshallValue value) :: unmarshall rest

/-- `unmarshallValue` from the utils module: the tag checks `'S' in value`,
`'N' in value`, ... in source order, with `Number` applied to `N`/`NS`
payloads, recursion into `M`/`L`, and `undefined` for any unrecognized
tag. -/
def unmarshallValue : AttributeValue → Js
  | AttributeValue.S s => Js.str s
  | AttributeValue.N n => Js.num (jsNumber n)
  | AttributeValue.B b => Js.str b
  | AttributeValue.SS ss => Js.arr (ss.map Js.str)
  | AttributeValue.NS ns => Js.arr (ns.map fun n => Js.num (jsNumber n))
  | AttributeValue.BS bs => Js.arr (bs.map Js.str)
  | AttributeValue.M m => Js.obj (unmarshall m)
  | AttributeValue.L l => Js.arr (unmarshallList l)
  | AttributeValue.NULL _ => Js.null
  | AttributeValue.BOOL b => Js.bool b
  | AttributeValue.unknownTag _ => Js.undef

/-- `value.L.map(unmarshallValue)`. -/
def unmarshallList : List AttributeValue → List Js
  | [] => []
  | v :: rest => unmarshallValue v :: unmarshallList rest

end

/-- A plain value of one of the supported tagged-variant types (string,
number, binary, string-set, number-set, binary-set, map, list, null,
boolean).  Numbers are modelled as integers (a JavaScript number whose
decimal rendering round-trips through `Number`); binary payloads are the
base64 strings of the wire type. -/
inductive PlainValue : Type where
  | str (s : String)
  | num (n : Int)
  | bin (b : String)
  | strSet (ss : List String)
  | numSet (ns : List Int)
  | binSet (bs : List String)
  | map (fields : List (String × PlainValue))
  | list (elems : List PlainValue)
  | null
  | bool (b : Bool)

mutual

/-- The encoding of a plain value as a tagged attribute value, following the
specification's words — the repository contains no marshaller, so this is
the evident type-directed encoding the round-trip claim quantifies over:
each supported type gets its tag, numbers are rendered as their decimal
strings. -/
def marshallValue : PlainValue → AttributeValue
  | PlainValue.str s => AttributeValue.S s
  | PlainValue.num n => AttributeValue.N (intDecimalString n)
  | PlainValue.bin b => AttributeValue.B b
  | PlainValue.strSet ss => AttributeValue.SS ss
  | PlainValue.numSet ns => AttributeValue.NS (ns.map intDecimalString)
  | PlainValue.binSet bs => AttributeValue.BS bs
  | PlainValue.map fields => AttributeValue.M (marshallMap fields)
  | PlainValue.list elems => AttributeValue.L (marshallList elems)
  | PlainValue.null => AttributeValue.NULL true
  | PlainValue.bool b => AttributeValue.BOOL b

/-- Entry-wise encoding of a plain map. -/
def marshallMap : List (String × PlainValue) → List (String × AttributeValue)
  | [] => []
  | (k, v) :: rest => (k, marshallValue v) :: marshallMap rest

/-- Element-wise encoding of a plain list. -/
def marshallList : List PlainValue → List AttributeValue
  | [] => []
  | v :: rest => marshallValue v :: marshallList rest

end

mutual

/-- The plain JavaScript value a `PlainValue` stands for (sets become
arrays, maps become objects). -/
def denote : PlainValue → Js
  | PlainValue.str s => Js.str s
  | PlainValue.num n => Js.num n
  | PlainValue.bin b => Js.str b
  | PlainValue.strSet ss => Js.arr (ss.map Js.str)
  | PlainValue.numSet ns => Js.arr (ns.map Js.num)
  | PlainValue.binSet bs => Js.arr (bs.map Js.str)
  | PlainValue.map fields => Js.obj (denoteMap fields)
  | PlainValue.list elems => Js.arr (denoteList elems)
  | PlainValue.null => Js.null
  | PlainValue.bool b => Js.bool b

/-- Entry-wise denotation of a plain map. -/
def denoteMap : List (String × PlainValue) → List (String × Js)
  | [] => []
  | (k, v) :: rest => (k, denote v) :: denoteMap rest

/-- Element-wise denotation of a plain list. -/
def denoteList : List PlainValue → List Js
  | [] => []
  | v :: rest => denote v :: denoteList rest

end

/-- A per-record step for witnesses: the record is its own id, its event is
itself, and the record "bad" throws. -/
def witnessStep (r : String) : List String × Except String Unit :=
  ([r], if r = "bad" then Except.error "boom" else Except.ok ())

/-- A specific route for queue "orders". -/
def ordersRoute : SqsRouter.SQSRoute :=
  { queueName := some "orders", options := none,
    handler := fun _ => (["h1"], Except.ok ()) }

/-- A specific route for queue "other". -/
def otherRoute : SqsRouter.SQSRoute :=
  { queueName := some "other", options := none,
    handler := fun _ => (["h2"], Except.ok ()) }

/-- A not-found handler that completes normally. -/
def okNotFoundHandler : SQSRecord → List String × Except String Unit :=
  fun _ => (["notFound"], Except.ok ())

/-- A route lookup that always yields a sequential route. -/
def seqFindRoute : Unit → Option (BatchRouter.Route Unit) :=
  fun _ => some { options := some { sequential := some true }, handler := () }

/-- A catch-all route whose handler throws. -/
def failingRoute : SqsRouter.SQSRoute :=
  { queueName := none, options := none,
    handler := fun _ => (["handler"], Except.error "boom") }

/-- A catch-all route (middleware generation) whose handler throws. -/
def failingRouteMw : SqsRouterMw.SQSRoute :=
  { matcher := none, options := none, handler := fun _ => throwM "boom" }

/-- An error handler that completes normally. -/
def okErrorHandler : String → SQSRecord → List String × Except String Unit :=
  fun _ _ => (["errorHandler"], Except.ok ())

@[simp] theorem run_pure {α : Type} (a : α) (s : ChainState) :
    (pure a : M α) s = Res.ok a s := rfl

@[simp] theorem run_bind {α β : Type} (x : M α) (f : α → M β) (s : ChainState) :
    (x >>= f) s = match x s with
      | Res.ok a t => f a t
      | Res.err e t => Res.err e t := rfl

@[simp] theorem run_getS (s : ChainState) : getS s = Res.ok s s := rfl

@[simp] theorem run_modifyS (f : ChainState → ChainState) (s : ChainState) :
    modifyS f s = Res.ok () (f s) := rfl

@[simp] theorem run_throwM {α : Type} (e : String) (s : ChainState) :
    (throwM e : M α) s = Res.err e s := rfl

/-- A dispatch call whose index does not exceed the highest index already
reached fails at once with the protocol error, touching nothing. -/
theorem dispatch_guard {C : Type} (handler : C → M Unit) (c : C)
    (suffix : List (Mw C)) (index : Nat) (s : ChainState)
    (h : (index : Int) ≤ s.currentIndex) :
    dispatch handler c suffix index s
      = Res.err "next() called multiple times" s := by
  cases suffix <;> simp [dispatch, apply_ite, h]

/-- Base case: at the end of the chain the terminal handler runs. -/
theorem chainOk_nil {C : Type} (hl : String) (c : C) (i : Nat) :
    chainOk (logHandler hl) c [] i [hl] (i : Int) := by
  intro s hs
  refine ⟨s.nextCalled, ?_, fun j _ => rfl⟩
  simp only [dispatch, run_bind, run_getS, apply_ite, run_throwM, run_modifyS,
    logHandler, emit, run_pure]
  rw [hs, if_neg (by omega)]
  rfl

/-- Step case: a before/after logging middleware wraps a successful rest-run
in its two phases, and its `next()` call suppresses auto-continue. -/
theorem chainOk_logMw {C : Type} (hl b a : String) (c : C) (rest : List (Mw C))
    (i : Nat) (T : List String) (F : Int)
    (ih : chainOk (logHandler hl) c rest (i + 1) T F) :
    chainOk (logHandler hl) c (logMw b a :: rest) i ([b] ++ T ++ [a]) F := by
  intro s hs
  obtain ⟨nc, hrun, hpres⟩ := ih
    { currentIndex := (i : Int),
      nextCalled := Function.update (Function.update s.nextCalled i false) i true,
      trace := s.trace ++ [b] }
    (by simp)
  have hnci : nc i = true := by
    have h := hpres i (by omega)
    simpa using h
  refine ⟨nc, ?_, ?_⟩
  · simp only [dispatch, run_bind, run_getS, apply_ite, run_throwM, run_modifyS,
      run_pure, logMw, emit]
    rw [hs, if_neg (by omega)]
    simp only [run_bind, run_modifyS, run_getS, run_pure]
    rw [hrun]
    simp [hnci, List.append_assoc]
  · intro j hj
    have h := hpres j (by omega)
    have hji : j ≠ i := by omega
    simpa [Function.update_noteq hji] using h

/-- Step case: a middleware with only a before phase still lets the rest of
the chain run exactly once via its `next()` call. -/
theorem chainOk_beforeMw {C : Type} (hl b : String) (c : C) (rest : List (Mw C))
    (i : Nat) (T : List String) (F : Int)
    (ih : chainOk (logHandler hl) c rest (i + 1) T F) :
    chainOk (logHandler hl) c (beforeMw b :: rest) i ([b] ++ T) F := by
  intro s hs
  obtain ⟨nc, hrun, hpres⟩ := ih
    { currentIndex := (i : Int),
      nextCalled := Function.update (Function.update s.nextCalled i false) i true,
      trace := s.trace ++ [b] }
    (by simp)
  have hnci : nc i = true := by
    have h := hpres i (by omega)
    simpa using h
  refine ⟨nc, ?_, ?_⟩
  · simp only [dispatch, run_bind, run_getS, apply_ite, run_throwM, run_modifyS,
      run_pure, beforeMw, emit]
    rw [hs, if_neg (by omega)]
    simp only [run_bind, run_modifyS, run_getS, run_pure]
    rw [hrun]
    simp [hnci, List.append_assoc]
  · intro j hj
    have h := hpres j (by omega)
    have hji : j ≠ i := by omega
    simpa [Function.update_noteq hji] using h

/-- Step case (auto-continue): a middleware that never calls `next()` leaves
its flag false, so the composer dispatches the rest of the chain itself. -/
theorem chainOk_noNextMw {C : Type} (hl b : String) (c : C) (rest : List (Mw C))
    (i : Nat) (T : List String) (F : Int)
    (ih : chainOk (logHandler hl) c rest (i + 1) T F) :
    chainOk (logHandler hl) c (noNextMw b :: rest) i ([b] ++ T) F := by
  intro s hs
  obtain ⟨nc, hrun, hpres⟩ := ih
    { currentIndex := (i : Int),
      nextCalled := Function.update s.nextCalled i false,
      trace := s.trace ++ [b] }
    (by simp)
  refine ⟨nc, ?_, ?_⟩
  · simp only [dispatch, run_bind, run_getS, apply_ite, run_throwM, run_modifyS,
      run_pure, noNextMw, emit]
    rw [hs, if_neg (by omega)]
    simp only [run_bind, run_modifyS, run_getS, run_pure, Function.update_same]
    rw [if_pos trivial, hrun]
    simp [List.append_assoc]
  · intro j hj
    have h := hpres j (by omega)
    have hji : j ≠ i := by omega
    simpa [Function.update_noteq hji] using h

/-- Step case (error propagation): a protocol error from deeper in the chain
unwinds through a logging middleware, skipping its after phase. -/
theorem chainErr_logMw {C : Type} (hl b a : String) (c : C) (rest : List (Mw C))
    (i : Nat) (T : List String)
    (ih : chainErr (logHandler hl) c rest (i + 1) T) :
    chainErr (logHandler hl) c (logMw b a :: rest) i ([b] ++ T) := by
  intro s hs
  obtain ⟨t, hrun, htr⟩ := ih
    { currentIndex := (i : Int),
      nextCalled := Function.update (Function.update s.nextCalled i false) i true,
      trace := s.trace ++ [b] }
    (by simp)
  refine ⟨t, ?_, ?_⟩
  · simp only [dispatch, run_bind, run_getS, apply_ite, run_throwM, run_modifyS,
      run_pure, logMw, emit]
    rw [hs, if_neg (by omega)]
    simp only [run_bind, run_modifyS, run_getS, run_pure]
    rw [hrun]
  · simpa [List.append_assoc] using htr

/-- Step case (double `next()`): the first `next()` runs the rest of the
chain to completion, pushing `currentIndex` past this middleware, so the
second `next()` hits the `index <= currentIndex` guard and throws the
protocol error before touching any downstream middleware or the handler. -/
theorem chainErr_doubleNextMw {C : Type} (hl : String) (c : C)
    (rest : List (Mw C)) (i : Nat) (T : List String) (F : Int)
    (hF : (i : Int) + 1 ≤ F)
    (ih : chainOk (logHandler hl) c rest (i + 1) T F) :
    chainErr (logHandler hl) c (doubleNextMw :: rest) i T := by
  intro s hs
  obtain ⟨nc, hrun, hpres⟩ := ih
    { currentIndex := (i : Int),
      nextCalled := Function.update (Function.update s.nextCalled i false) i true,
      trace := s.trace }
    (by simp)
  have hrun' : dispatch (logHandler hl) c rest (i + 1)
      ⟨(i : Int), Function.update (Function.update s.nextCalled i false) i true,
        s.trace⟩ = Res.ok () ⟨F, nc, s.trace ++ T⟩ := by
    simpa using hrun
  refine ⟨⟨F, Function.update nc i true, s.trace ++ T⟩, ?_, rfl⟩
  simp only [dispatch, run_bind, run_getS, apply_ite, run_throwM, run_modifyS,
    run_pure, doubleNextMw]
  rw [hs, if_neg (by omega)]
  simp only [run_bind, run_modifyS, run_getS, run_pure]
  rw [hrun']
  simp only [run_bind, run_modifyS, run_getS, run_pure]
  rw [dispatch_guard (logHandler hl) c rest (i + 1)
    ⟨F, Function.update nc i true, s.trace ++ T⟩ (by simpa using hF)]

/-- A block of before/after logging middleware runs its before phases in
list order, then the rest of the chain, then its after phases in reverse
order. -/
theorem chainOk_logPrefix {C : Type} (hl : String) (c : C)
    (pairs : List (String × String)) :
    ∀ (rest : List (Mw C)) (i : Nat) (T : List String) (F : Int),
    chainOk (logHandler hl) c rest (i + pairs.length) T F →
    chainOk (logHandler hl) c (pairs.map pairMw ++ rest) i
      (pairs.map Prod.fst ++ T ++ (pairs.map Prod.snd).reverse) F := by
  induction pairs with
  | nil => intro rest i T F h; simpa using h
  | cons p ps ih =>
    intro rest i T F h
    have h' : chainOk (logHandler hl) c rest (i + 1 + ps.length) T F := by
      have e : i + 1 + ps.length = i + (p :: ps).length := by
        simp [List.length_cons]; omega
      rwa [e]
    have step := chainOk_logMw hl p.1 p.2 c (List.map pairMw ps ++ rest) i
      (ps.map Prod.fst ++ T ++ (ps.map Prod.snd).reverse) F (ih rest (i + 1) T F h')
    simpa [pairMw, List.append_assoc] using step

/-- A protocol error below a block of logging middleware propagates through
it: the block's before phases ran, none of its after phases do. -/
theorem chainErr_logPrefix {C : Type} (hl : String) (c : C)
    (pairs : List (String × String)) :
    ∀ (rest : List (Mw C)) (i : Nat) (T : List String),
    chainErr (logHandler hl) c rest (i + pairs.length) T →
    chainErr (logHandler hl) c (pairs.map pairMw ++ rest) i
      (pairs.map Prod.fst ++ T) := by
  induction pairs with
  | nil => intro rest i T h; simpa using h
  | cons p ps ih =>
    intro rest i T h
    have h' : chainErr (logHandler hl) c rest (i + 1 + ps.length) T := by
      have e : i + 1 + ps.length = i + (p :: ps).length := by
        simp [List.length_cons]; omega
      rwa [e]
    have step := chainErr_logMw hl p.1 p.2 c (List.map pairMw ps ++ rest) i
      (ps.map Prod.fst ++ T) (ih rest (i + 1) T h')
    simpa [pairMw, List.append_assoc] using step

/-- C4: for an ordered middleware list `[m0, ..., mn]` (each with a before
and an after phase around an awaited `next()`) and terminal handler `h`, one
invocation of the composed chain runs `m0`(before), ..., `mn`(before), `h`,
`mn`(after), ..., `m0`(after), each after phase resuming only once the
operation returned by its `next()` call has completed, and succeeds. -/
theorem composeMiddleware_onion_order {C : Type} (pairs : List (String × String))
    (hl : String) (c : C) :
    runChain (pairs.map pairMw) (logHandler hl) c
      = (Except.ok (), pairs.map Prod.fst ++ [hl] ++ (pairs.map Prod.snd).reverse) := by
  have base : chainOk (logHandler hl) c [] (0 + pairs.length) [hl]
      ((pairs.length : Nat) : Int) := by
    simpa using chainOk_nil hl c pairs.length
  have run := chainOk_logPrefix hl c pairs [] 0 [hl] ((pairs.length : Nat) : Int) base
  obtain ⟨nc, hrun, _⟩ := run ⟨-1, fun _ => false, []⟩ (by norm_num)
  simp only [List.append_nil] at hrun
  simp only [runChain, composeMiddleware, run_bind, run_modifyS]
  rw [show ({ currentIndex := -1, nextCalled := fun _ => false, trace := [] } :
      ChainState) = (⟨-1, fun _ => false, []⟩ : ChainState) from rfl]
  rw [hrun]
  simp

/-- C6: a middleware that returns without ever invoking `next()` does not
stop the chain: the remaining middleware and the terminal handler all still
run, in the same relative order as if the middleware had called and awaited
`next()` with no after phase, and the two runs have identical outcomes. -/
theorem composeMiddleware_auto_continue {C : Type}
    (pre post : List (String × String)) (b hl : String) (c : C) :
    runChain (pre.map pairMw ++ noNextMw b :: post.map pairMw) (logHandler hl) c
      = runChain (pre.map pairMw ++ beforeMw b :: post.map pairMw) (logHandler hl) c
    ∧ runChain (pre.map pairMw ++ noNextMw b :: post.map pairMw) (logHandler hl) c
      = (Except.ok (), pre.map Prod.fst ++ [b] ++ post.map Prod.fst ++ [hl]
          ++ (post.map Prod.snd).reverse ++ (pre.map Prod.snd).reverse) := by
  have base : chainOk (logHandler hl) c ([] : List (Mw C))
      (pre.length + 1 + post.length) [hl]
      ((pre.length + 1 + post.length : Nat) : Int) :=
    chainOk_nil hl c (pre.length + 1 + post.length)
  have postRun : chainOk (logHandler hl) c (post.map pairMw) (pre.length + 1)
      (post.map Prod.fst ++ [hl] ++ (post.map Prod.snd).reverse)
      ((pre.length + 1 + post.length : Nat) : Int) := by
    simpa using chainOk_logPrefix hl c post [] (pre.length + 1) [hl]
      ((pre.length + 1 + post.length : Nat) : Int) base
  have h1 : runChain (pre.map pairMw ++ noNextMw b :: post.map pairMw)
      (logHandler hl) c
      = (Except.ok (), pre.map Prod.fst ++ [b] ++ post.map Prod.fst ++ [hl]
          ++ (post.map Prod.snd).reverse ++ (pre.map Prod.snd).reverse) := by
    have stepN := chainOk_noNextMw hl b c (post.map pairMw) pre.length
      (post.map Prod.fst ++ [hl] ++ (post.map Prod.snd).reverse)
      ((pre.length + 1 + post.length : Nat) : Int) postRun
    have fullN := chainOk_logPrefix hl c pre (noNextMw b :: post.map pairMw) 0
      ([b] ++ (post.map Prod.fst ++ [hl] ++ (post.map Prod.snd).reverse))
      ((pre.length + 1 + post.length : Nat) : Int) (by simpa using stepN)
    obtain ⟨nc, hrun, _⟩ := fullN ⟨-1, fun _ => false, []⟩ (by norm_num)
    simp only [runChain, composeMiddleware, run_bind, run_modifyS]
    rw [show ({ currentIndex := -1, nextCalled := fun _ => false, trace := [] } :
        ChainState) = (⟨-1, fun _ => false, []⟩ : ChainState) from rfl]
    rw [hrun]
    simp [List.append_assoc]
  have h2 : runChain (pre.map pairMw ++ beforeMw b :: post.map pairMw)
      (logHandler hl) c
      = (Except.ok (), pre.map Prod.fst ++ [b] ++ post.map Prod.fst ++ [hl]
          ++ (post.map Prod.snd).reverse ++ (pre.map Prod.snd).reverse) := by
    have stepB := chainOk_beforeMw hl b c (post.map pairMw) pre.length
      (post.map Prod.fst ++ [hl] ++ (post.map Prod.snd).reverse)
      ((pre.length + 1 + post.length : Nat) : Int) postRun
    have fullB := chainOk_logPrefix hl c pre (beforeMw b :: post.map pairMw) 0
      ([b] ++ (post.map Prod.fst ++ [hl] ++ (post.map Prod.snd).reverse))
      ((pre.length + 1 + post.length : Nat) : Int) (by simpa using stepB)
    obtain ⟨nc, hrun, _⟩ := fullB ⟨-1, fun _ => false, []⟩ (by norm_num)
    simp only [runChain, composeMiddleware, run_bind, run_modifyS]
    rw [show ({ currentIndex := -1, nextCalled := fun _ => false, trace := [] } :
        ChainState) = (⟨-1, fun _ => false, []⟩ : ChainState) from rfl]
    rw [hrun]
    simp [List.append_assoc]
  exact ⟨h1.trans h2.symm, h1⟩

/-- C5: a middleware that invokes `next()` twice makes the chain fail with
the protocol error "next() called multiple times"; the error surfaces as the
chain's outcome (exactly as a thrown handler error would, so the record is
counted failed), and the trace shows every downstream middleware and the
terminal handler ran exactly once — nothing runs a second time, and the
enclosing middlewares' after phases are skipped by the unwinding error. -/
theorem composeMiddleware_double_next {C : Type}
    (pre post : List (String × String)) (hl : String) (c : C) :
    runChain (pre.map pairMw ++ doubleNextMw :: post.map pairMw) (logHandler hl) c
      = (Except.error "next() called multiple times",
         pre.map Prod.fst ++ post.map Prod.fst ++ [hl]
           ++ (post.map Prod.snd).reverse) := by
  have base : chainOk (logHandler hl) c ([] : List (Mw C))
      (pre.length + 1 + post.length) [hl]
      ((pre.length + 1 + post.length : Nat) : Int) :=
    chainOk_nil hl c (pre.length + 1 + post.length)
  have postRun : chainOk (logHandler hl) c (post.map pairMw) (pre.length + 1)
      (post.map Prod.fst ++ [hl] ++ (post.map Prod.snd).reverse)
      ((pre.length + 1 + post.length : Nat) : Int) := by
    simpa using chainOk_logPrefix hl c post [] (pre.length + 1) [hl]
      ((pre.length + 1 + post.length : Nat) : Int) base
  have stepE := chainErr_doubleNextMw hl c (post.map pairMw) pre.length
    (post.map Prod.fst ++ [hl] ++ (post.map Prod.snd).reverse)
    ((pre.length + 1 + post.length : Nat) : Int) (by push_cast; omega) postRun
  have fullE := chainErr_logPrefix hl c pre (doubleNextMw :: post.map pairMw) 0
    (post.map Prod.fst ++ [hl] ++ (post.map Prod.snd).reverse)
    (by simpa using stepE)
  obtain ⟨t, hrun, htr⟩ := fullE ⟨-1, fun _ => false, []⟩ (by norm_num)
  simp only [runChain, composeMiddleware, run_bind, run_modifyS]
  rw [show ({ currentIndex := -1, nextCalled := fun _ => false, trace := [] } :
      ChainState) = (⟨-1, fun _ => false, []⟩ : ChainState) from rfl]
  rw [hrun]
  simp [htr, List.append_assoc]

/-- C1: in a sequential batch where every record before `bad` processes
successfully and `bad`'s processing throws, processing stops at `bad`: the
failure list is exactly the ids of `bad` and all remaining records, in list
order, and the only events that happen are those of the successful prefix
and of `bad` itself — no handler, middleware, or not-found handling runs
for any later record. -/
theorem processSequentially_stops_at_first_failure {ρ ε : Type}
    (getRecordId : ρ → String)
    (processRecord : ρ → List String × Except ε Unit)
    (good : List ρ) (bad : ρ) (rest : List ρ) (e : ε)
    (hgood : ∀ r ∈ good, (processRecord r).2 = Except.ok ())
    (hbad : (processRecord bad).2 = Except.error e) :
    BatchRouter.processSequentially getRecordId processRecord (good ++ bad :: rest)
      = ((bad :: rest).map getRecordId,
         (good.map fun r => (processRecord r).1).flatten ++ (processRecord bad).1) := by
  induction good with
  | nil =>
    rcases hpr : processRecord bad with ⟨tr, out⟩
    rw [hpr] at hbad
    simp only at hbad
    subst hbad
    simp [BatchRouter.processSequentially, hpr]
  | cons a as ih =>
    have ha : (processRecord a).2 = Except.ok () := hgood a (by simp)
    have ih' := ih fun r hr => hgood r (by simp [hr])
    rcases hpr : processRecord a with ⟨tr, out⟩
    rw [hpr] at ha
    simp only at ha
    subst ha
    simp [BatchRouter.processSequentially, hpr, ih', List.append_assoc]

/-- Records that all settle successfully contribute nothing to the parallel
failure list. -/
theorem filter_isRejected_all_ok {ρ ε : Type}
    (processRecord : ρ → List String × Except ε Unit) (l : List ρ)
    (h : ∀ r ∈ l, (processRecord r).2 = Except.ok ()) :
    (l.filter fun r => BatchRouter.isRejected (processRecord r).2) = [] := by
  rw [List.filter_eq_nil_iff]
  intro r hr
  rw [h r hr]
  simp [BatchRouter.isRejected]

/-- C2: in a concurrent batch where exactly one record's processing throws
and all others complete normally, the failure list is exactly that record's
id; every record's events still happen in full (one record's failure never
affects another's execution), and since failure ids are collected by a scan
of the original list, their relative order is that of the record list. -/
theorem processInParallel_isolates_failures {ρ ε : Type}
    (getRecordId : ρ → String)
    (processRecord : ρ → List String × Except ε Unit)
    (before after : List ρ) (bad : ρ) (e : ε)
    (hbefore : ∀ r ∈ before, (processRecord r).2 = Except.ok ())
    (hafter : ∀ r ∈ after, (processRecord r).2 = Except.ok ())
    (hbad : (processRecord bad).2 = Except.error e) :
    BatchRouter.processInParallel getRecordId processRecord (before ++ bad :: after)
      = ([getRecordId bad],
         (before ++ bad :: after).map fun r => (processRecord r).1) := by
  unfold BatchRouter.processInParallel
  rw [List.filter_append, List.filter_cons,
    filter_isRejected_all_ok processRecord before hbefore,
    filter_isRejected_all_ok processRecord after hafter]
  rw [hbad]
  simp [BatchRouter.isRejected]

/-- C9: the execution mode of a batch is computed once, from the first
record's matched route only: it is sequential exactly when that route exists
and its `options.sequential` is `true`, and concurrent otherwise (no first
record, no matching route, no options, or `sequential` absent or `false`).
The mode does not depend on any later record, `handle` commits to the chosen
mode for the whole batch, and an empty record list yields an empty failure
list. -/
theorem handle_mode_fixed_by_first_record {ρ η ε : Type}
    (getRecordId : ρ → String)
    (findRouteForRecord : ρ → Option (BatchRouter.Route η))
    (processRecord : ρ → List String × Except ε Unit) :
    BatchRouter.handle getRecordId findRouteForRecord processRecord ([] : List ρ)
        = { batchItemFailures := [] }
    ∧ (∀ records : List ρ,
        BatchRouter.handle getRecordId findRouteForRecord processRecord records
          = { batchItemFailures :=
              (if BatchRouter.isSequential findRouteForRecord records.head? then
                (BatchRouter.processSequentially getRecordId processRecord records).1
              else
                (BatchRouter.processInParallel getRecordId processRecord records).1).map
                fun id => { itemIdentifier := id } })
    ∧ (∀ (r : ρ) (rest rest' : List ρ),
        BatchRouter.isSequential findRouteForRecord ((r :: rest).head?)
          = BatchRouter.isSequential findRouteForRecord ((r :: rest').head?))
    ∧ (∀ (r : ρ) (rest : List ρ),
        BatchRouter.isSequential findRouteForRecord ((r :: rest).head?) = true
          ↔ ∃ route o, findRouteForRecord r = some route
              ∧ route.options = some o ∧ o.sequential = some true) := by
  refine ⟨rfl, fun _ => rfl, fun _ _ _ => rfl, fun r rest => ?_⟩
  simp only [List.head?_cons, BatchRouter.isSequential]
  cases hfr : findRouteForRecord r with
  | none => simp
  | some route =>
    cases hro : route.options with
    | none => simp [hro]
    | some o => simp [hro, beq_iff_eq]

/-- C3 (counterexample): the claim says a route with a *present* matcher
field matches only keys equal to it, and that when no route matches the
result is `undefined`.  But `matchRoute` tests `!route.queueName ||
route.queueName === queue`, and in JavaScript the empty string is falsy: a
route registered with queue name `""` is treated as a wildcard.  For key
"orders" the code returns that route even though no route matches in the
specification's sense. -/
theorem matchRoute_empty_matcher_counterexample :
    SqsRouter.matchRoute [emptyMatcherRoute] "orders" = some emptyMatcherRoute
      ∧ specMatchesSQS "orders" emptyMatcherRoute = false :=
  ⟨rfl, rfl⟩

/-- C3 (amended): route matching scans the list in registration order and
returns the first route whose matcher fields pass the implemented test —
absent *or empty-string* (JS-falsy) fields are wildcards, any other present
field must equal the corresponding key field.  Consequently, of two routes
that both match a key, the earlier-registered one is returned (a route wins
whenever it matches and everything registered before it does not), and the
result is `undefined` exactly when no route matches. -/
theorem matchRoute_first_match_wins {η : Type} :
    (∀ (routes : List SqsRouter.SQSRoute) (queue : String),
        SqsRouter.matchRoute routes queue = routes.find? (jsMatchesSQS queue))
    ∧ (∀ (routes : List (EventRouter.EventBridgeRoute η)) (source detailType : String),
        EventRouter.matchEventBridgeHandler routes source detailType
          = (routes.find? (jsMatchesEB source detailType)).map
              fun route => route.handler)
    ∧ (∀ (pre post : List SqsRouter.SQSRoute) (r : SqsRouter.SQSRoute)
        (queue : String),
        jsMatchesSQS queue r = true →
        (∀ r2 ∈ pre, jsMatchesSQS queue r2 = false) →
        SqsRouter.matchRoute (pre ++ r :: post) queue = some r)
    ∧ (∀ (routes : List SqsRouter.SQSRoute) (queue : String),
        SqsRouter.matchRoute routes queue = none
          ↔ ∀ r ∈ routes, jsMatchesSQS queue r = false) := by
  have hsqs : ∀ (routes : List SqsRouter.SQSRoute) (queue : String),
      SqsRouter.matchRoute routes queue = routes.find? (jsMatchesSQS queue) := by
    intro routes queue
    induction routes with
    | nil => rfl
    | cons a l ih =>
      rw [List.find?_cons]
      cases h : jsMatchesSQS queue a with
      | true =>
        simp only [SqsRouter.matchRoute]
        rw [if_pos (by simpa [jsMatchesSQS] using h)]
      | false =>
        simp only [SqsRouter.matchRoute]
        rw [if_neg (by simpa [jsMatchesSQS] using h), ih]
  refine ⟨hsqs, ?_, ?_, ?_⟩
  · intro routes source detailType
    induction routes with
    | nil => rfl
    | cons a l ih =>
      rw [List.find?_cons]
      cases ho : a.options with
      | none =>
        simp only [EventRouter.matchEventBridgeHandler, ho]
        have hm : jsMatchesEB source detailType a = true := by
          simp [jsMatchesEB, ho]
        rw [hm]
        rfl
      | some opts =>
        cases h : jsMatchesEB source detailType a with
        | true =>
          simp only [EventRouter.matchEventBridgeHandler, ho]
          rw [if_pos (by simpa [jsMatchesEB, ho] using h)]
          rfl
        | false =>
          simp only [EventRouter.matchEventBridgeHandler, ho]
          rw [if_neg (by simpa [jsMatchesEB, ho] using h), ih]
  · intro pre post r queue hr hpre
    induction pre with
    | nil =>
      simp only [List.nil_append, SqsRouter.matchRoute]
      rw [if_pos (by simpa [jsMatchesSQS] using hr)]
    | cons a l ih =>
      have ha := hpre a (by simp)
      simp only [List.cons_append, SqsRouter.matchRoute]
      rw [if_neg (by simpa [jsMatchesSQS] using ha)]
      exact ih fun r2 hr2 => hpre r2 (by simp [hr2])
  · intro routes queue
    rw [hsqs routes queue, List.find?_eq_none]
    constructor
    · intro h r hr
      simpa using h r hr
    · intro h r hr
      simp [h r hr]

/-- C8 (counterexample): a record matching no route is delegated to the
registered not-found handler, but if that handler itself throws, the
record's processing rejects and its id *does* appear in the batch failure
list — contradicting "never appears". -/
theorem notFound_failure_counterexample :
    SqsRouter.handle [] none (some throwingNotFoundHandler) [orphanRecord]
      = { batchItemFailures := [{ itemIdentifier := "msg-1" }] } := rfl

/-- C8 (amended): a batch record that matches no registered route is
delegated to the not-found handler when one is registered, and — provided
that handler completes normally (or none is registered) — the record's
processing succeeds, so it is a success for batch-failure purposes and
contributes no entry to the failure list. -/
theorem notFound_record_counts_as_success
    (routes : List SqsRouter.SQSRoute)
    (errorHandler : Option (String → SQSRecord → List String × Except String Unit))
    (notFoundHandler : Option (SQSRecord → List String × Except String Unit))
    (record : SQSRecord)
    (hnomatch : SqsRouter.matchRoute routes (parseQueueName record.eventSourceARN)
      = none)
    (hnf : ∀ h, notFoundHandler = some h → (h record).2 = Except.ok ()) :
    SqsRouter.processRecord routes errorHandler notFoundHandler record
      = ((match notFoundHandler with
          | some h => (h record).1
          | none => []), Except.ok ()) := by
  cases notFoundHandler with
  | none => simp [SqsRouter.processRecord, hnomatch]
  | some h =>
    have hh := hnf h rfl
    simp only [SqsRouter.processRecord, hnomatch]
    rw [← hh]

/-- C10: whenever a record's handler (or its composed middleware chain)
throws and an error handler is registered, the error handler is awaited
with the error, and then the *original* error is rethrown unconditionally:
an error handler that returns normally never swallows the error, so the
record is still reported as failed.  Stated for both cited generations: the
plain `src/routers/sqs-router.ts` processRecord and the
middleware-composing `src/router/sqs-router.ts` processRecord (the
`EventRouter.handleSQS` per-record closure in `src/router.ts` has the
identical catch block). -/
theorem errorHandler_rethrows_original_error :
    (∀ (routes : List SqsRouter.SQSRoute)
        (ehf : String → SQSRecord → List String × Except String Unit)
        (notFoundHandler : Option (SQSRecord → List String × Except String Unit))
        (record : SQSRecord) (route : SqsRouter.SQSRoute) (err : String),
        SqsRouter.matchRoute routes (parseQueueName record.eventSourceARN)
            = some route →
        (route.handler record).2 = Except.error err →
        (ehf err record).2 = Except.ok () →
        SqsRouter.processRecord routes (some ehf) notFoundHandler record
          = ((route.handler record).1 ++ (ehf err record).1, Except.error err))
    ∧ (∀ (routes : List SqsRouterMw.SQSRoute)
        (ehf : String → SQSRecord → List String × Except String Unit)
        (notFoundHandler : Option (SQSRecord → List String × Except String Unit))
        (middleware : List (Mw SQSRecord)) (record : SQSRecord)
        (route : SqsRouterMw.SQSRoute) (err : String) (tr : List String),
        SqsRouterMw.matchRoute routes (parseQueueName record.eventSourceARN)
            = some route →
        runChain middleware route.handler record = (Except.error err, tr) →
        (ehf err record).2 = Except.ok () →
        SqsRouterMw.processRecord routes (some ehf) notFoundHandler middleware
            record
          = (tr ++ (ehf err record).1, Except.error err)) := by
  constructor
  · intro routes ehf nf record route err hmatch hthrow hehok
    simp only [SqsRouter.processRecord, hmatch, hthrow, hehok]
  · intro routes ehf nf mws record route err tr hmatch hrun hehok
    simp only [SqsRouterMw.processRecord, hmatch, hrun, hehok]

theorem digitVal_digitChar (d : Nat) (hd : d < 10) :
    digitVal (Nat.digitChar d) = d := by
  interval_cases d <;> rfl

theorem digitsToNat_reverse_digits (L : List Nat) (hL : ∀ d ∈ L, d < 10) :
    digitsToNat (L.reverse.map Nat.digitChar) = Nat.ofDigits 10 L := by
  induction L with
  | nil => rfl
  | cons d L ih =>
    have hd : d < 10 := hL d (by simp)
    have ihL := ih fun x hx => hL x (by simp [hx])
    simp only [List.reverse_cons, List.map_append, List.map_cons, List.map_nil]
    rw [digitsToNat, List.foldl_append]
    simp only [List.foldl_cons, List.foldl_nil]
    rw [show (List.foldl (fun acc c => 10 * acc + digitVal c) 0
        (L.reverse.map Nat.digitChar)) = digitsToNat (L.reverse.map Nat.digitChar)
      from rfl]
    rw [ihL, digitVal_digitChar d hd, Nat.ofDigits_cons]
    ring

theorem digitsToNat_natDecimalDigits (n : Nat) :
    digitsToNat (natDecimalDigits n) = n := by
  rw [natDecimalDigits, digitsToNat_reverse_digits (Nat.digits 10 n)
    (fun d hd => Nat.digits_lt_base (by norm_num) hd), Nat.ofDigits_digits]

theorem natDecimalDigits_head_ne_minus (n : Nat) (c : Char) (cs : List Char)
    (h : natDecimalDigits n = c :: cs) : c ≠ '-' := by
  have : c ∈ natDecimalDigits n := by rw [h]; simp
  rw [natDecimalDigits] at this
  obtain ⟨d, hd, hdc⟩ := List.mem_map.mp this
  have hdlt : d < 10 := Nat.digits_lt_base (by norm_num) (List.mem_reverse.mp hd)
  subst hdc
  interval_cases d <;> decide

/-- Round trip for the number encoding: JavaScript's `Number` applied to the
canonical decimal rendering of an integer returns that integer. -/
theorem jsNumber_intDecimalString (i : Int) :
    jsNumber (intDecimalString i) = i := by
  cases i with
  | ofNat n =>
    by_cases h0 : n = 0
    · subst h0; rfl
    · rw [intDecimalString]
      simp only [h0, if_false]
      rw [jsNumber]
      rw [show (String.mk (natDecimalDigits n)).data = natDecimalDigits n from rfl]
      cases hd : natDecimalDigits n with
      | nil =>
        have := digitsToNat_natDecimalDigits n
        rw [hd] at this
        simp [digitsToNat] at this
        omega
      | cons c cs =>
        have hne := natDecimalDigits_head_ne_minus n c cs hd
        simp only
        rw [if_neg hne, ← hd, digitsToNat_natDecimalDigits]
        rfl
  | negSucc m =>
    rw [intDecimalString, jsNumber]
    rw [show (String.mk ('-' :: natDecimalDigits (m + 1))).data
        = '-' :: natDecimalDigits (m + 1) from rfl]
    simp only
    rw [if_pos trivial, digitsToNat_natDecimalDigits, Int.negSucc_eq]
    push_cast
    ring

mutual

/-- Decoding inverts the encoding, value by value. -/
theorem roundtripValue :
    ∀ v : PlainValue, unmarshallValue (marshallValue v) = denote v
  | PlainValue.str s => rfl
  | PlainValue.num n => by
    simp only [marshallValue, unmarshallValue, denote, jsNumber_intDecimalString]
  | PlainValue.bin b => rfl
  | PlainValue.strSet ss => rfl
  | PlainValue.numSet ns => by
    simp only [marshallValue, unmarshallValue, denote, List.map_map]
    congr 1
    refine List.map_congr_left fun x _ => ?_
    simp [Function.comp, jsNumber_intDecimalString]
  | PlainValue.binSet bs => rfl
  | PlainValue.map fields => by
    simp only [marshallValue, unmarshallValue, denote]
    exact congrArg Js.obj (roundtripMap fields)
  | PlainValue.list elems => by
    simp only [marshallValue, unmarshallValue, denote]
    exact congrArg Js.arr (roundtripList elems)
  | PlainValue.null => rfl
  | PlainValue.bool b => rfl

/-- Decoding inverts the encoding on map entries. -/
theorem roundtripMap :
    ∀ fields, unmarshall (marshallMap fields) = denoteMap fields
  | [] => rfl
  | (k, v) :: rest => by
    simp only [marshallMap, unmarshall, denoteMap]
    rw [roundtripValue v, roundtripMap rest]

/-- Decoding inverts the encoding on list elements. -/
theorem roundtripList :
    ∀ elems, unmarshallList (marshallList elems) = denoteList elems
  | [] => rfl
  | v :: rest => by
    simp only [marshallList, unmarshallList, denoteList]
    rw [roundtripValue v, roundtripList rest]

end

/-- C7: for every plain value of a supported tagged-variant type (string,
number, binary, string-set, number-set, binary-set, map, list, null,
boolean), encoding it as a tagged attribute value and unmarshalling yields
the original plain value; and unmarshalling an attribute value carrying an
unrecognized tag yields `undefined` — the decoder is total and never
throws. -/
theorem unmarshallValue_roundtrip :
    (∀ v : PlainValue, unmarshallValue (marshallValue v) = denote v)
    ∧ (∀ tag : String, unmarshallValue (AttributeValue.unknownTag tag) = Js.undef) :=
  ⟨roundtripValue, fun _ => rfl⟩

/-- Witness for the sequential-failure theorem at a concrete batch. -/
theorem processSequentially_stops_witness :
    BatchRouter.processSequentially (fun r => r) witnessStep
      (["g1", "g2"] ++ "bad" :: ["r1"])
      = (["bad", "r1"], ["g1", "g2", "bad"]) := by
  have h := processSequentially_stops_at_first_failure (fun r => r) witnessStep
    ["g1", "g2"] "bad" ["r1"] "boom" (by intro r hr; fin_cases hr <;> rfl)
    (by rfl)
  simpa [witnessStep] using h

/-- Witness for the concurrent-isolation theorem at a concrete batch. -/
theorem processInParallel_isolates_witness :
    BatchRouter.processInParallel (fun r => r) witnessStep
      (["g1"] ++ "bad" :: ["g3"])
      = (["bad"], [["g1"], ["bad"], ["g3"]]) := by
  have h := processInParallel_isolates_failures (fun r => r) witnessStep
    ["g1"] ["g3"] "bad" "boom" (by intro r hr; fin_cases hr; rfl)
    (by intro r hr; fin_cases hr; rfl) rfl
  simpa [witnessStep] using h

/-- Witness for the amended route-matching theorem: a non-matching earlier
route is skipped, a matching later one is returned, and an all-miss list
matches the none-characterization. -/
theorem matchRoute_first_match_wins_witness :
    SqsRouter.matchRoute ([otherRoute] ++ ordersRoute :: []) "orders"
        = some ordersRoute
    ∧ (SqsRouter.matchRoute [otherRoute] "orders" = none
        ↔ ∀ r ∈ [otherRoute], jsMatchesSQS "orders" r = false) :=
  ⟨(matchRoute_first_match_wins (η := Unit)).2.2.1 [otherRoute] [] ordersRoute
      "orders" rfl
      (by intro r2 hr2; rw [List.mem_singleton] at hr2; subst hr2; rfl),
   (matchRoute_first_match_wins (η := Unit)).2.2.2 [otherRoute] "orders"⟩

/-- Witness for the amended not-found theorem at a concrete record. -/
theorem notFound_success_witness :
    SqsRouter.processRecord [] none (some okNotFoundHandler) orphanRecord
      = (["notFound"], Except.ok ()) := by
  have h := notFound_record_counts_as_success [] none (some okNotFoundHandler)
    orphanRecord rfl (by intro h he; cases he; rfl)
  simpa [okNotFoundHandler] using h

/-- Witness for the batch-mode theorem: a first record whose route opts into
sequential processing makes the batch sequential. -/
theorem handle_mode_witness :
    BatchRouter.isSequential seqFindRoute (([()] : List Unit).head?) = true :=
  ((handle_mode_fixed_by_first_record (fun _ => "id") seqFindRoute
      (fun _ => ([], (Except.ok () : Except String Unit)))).2.2.2 () []).mpr
    ⟨{ options := some { sequential := some true }, handler := () },
     { sequential := some true }, rfl, rfl, rfl⟩

/-- Witness for the error-handler rethrow theorem, for both generations. -/
theorem errorHandler_rethrows_witness :
    SqsRouter.processRecord [failingRoute] (some okErrorHandler) none orphanRecord
        = (["handler", "errorHandler"], Except.error "boom")
    ∧ SqsRouterMw.processRecord [failingRouteMw] (some okErrorHandler) none []
        orphanRecord
        = (["errorHandler"], Except.error "boom") := by
  constructor
  · have h := errorHandler_rethrows_original_error.1 [failingRoute] okErrorHandler
      none orphanRecord failingRoute "boom" rfl rfl rfl
    simpa [failingRoute, okErrorHandler] using h
  · have h := errorHandler_rethrows_original_error.2 [failingRouteMw] okErrorHandler
      none [] orphanRecord failingRouteMw "boom" [] rfl rfl rfl
    simpa [okErrorHandler] using h
